import Mathlib

/-!
Shallow embedding of the scratchpad browser extension (src/scratchpad.js):
the save/sync reconciliation state machine over the in-memory document
state (editor content, last-saved snapshot, dirty flag), the persistence
gateway (loadContent / saveContent), the reconciler's two entry points
(checkForSyncUpdates and the storage onChanged listener), the scheduler
(debouncedSave timing, auto-save tick, beforeunload teardown), and the
sanitization layer (sanitizeURL / sanitizeHTML).

Conventions of the embedding:
* The storage backend is part of the state: `stored` is the value held at
  the key scratchpadContent (`none` when absent) and `available` says
  whether get/set resolve (true) or reject (false).  A rejected call is
  modelled by taking the catch branch of the corresponding try block.
* `storageArea` is assumed initialized (initStorage has run), so the
  `if (!storageArea)` re-initialization branches are not taken.
* The rendering surface's getContent/setContent pair is modelled as a
  plain string field `content`; on the modelled plain-string contents
  setContent stores the given value.
* Console logging has no state effect and is omitted; `updateStatus`
  is modelled by a `status` field recording the last status shown.
* Backend writes are counted: functions that may call
  `storageArea.set` return the number of set invocations they performed.
-/

namespace Scratchpad

/-- Status values passed to updateStatus in src/scratchpad.js. -/
inductive Status where
  | ready
  | saving
  | saved
  | loaded
  | error
deriving DecidableEq, Repr

/-- The two storage area names delivered to the onChanged listener. -/
inductive AreaName where
  | syncArea
  | localArea
deriving DecidableEq, Repr

/-- The mutable session state of scratchpad.js together with the modelled
storage backend. -/
structure SPState where
  /-- Serialized editor content (what getContent returns). -/
  content : String
  /-- lastSavedContent: last content known written to storage. -/
  lastSavedContent : String
  /-- contentChanged: the dirty flag. -/
  contentChanged : Bool
  /-- Last status shown via updateStatus. -/
  status : Status
  /-- Backend value at key scratchpadContent (none when absent). -/
  stored : Option String
  /-- Whether backend get/set resolve; false makes them reject. -/
  available : Bool
  /-- usingSyncStorage flag fixed by initStorage. -/
  usingSyncStorage : Bool
  /-- Whether the debounce timer (saveTimeout) is armed. -/
  saveTimeoutArmed : Bool
  /-- Whether the auto-save interval is running. -/
  autoSaveOn : Bool
  /-- Whether the sync-check interval is running. -/
  syncCheckOn : Bool
deriving DecidableEq, Repr

/-- saveContent (src/scratchpad.js lines 184-211).  Returns the new state
and the number of storageArea.set invocations (0 or 1).  If the current
content equals lastSavedContent it returns at once; otherwise it shows
'saving', attempts the set, and either commits (lastSavedContent :=
content, contentChanged := false, status 'saved') or takes the catch
branch (status 'error', everything else untouched). -/
def saveContent (s : SPState) : SPState × Nat :=
  if s.content = s.lastSavedContent then
    (s, 0)
  else
    let s1 := { s with status := Status.saving }
    if s1.available then
      ({ s1 with
          stored := some s1.content
          lastSavedContent := s1.content
          contentChanged := false
          status := Status.saved }, 1)
    else
      ({ s1 with status := Status.error }, 1)

/-- loadContent (src/scratchpad.js lines 162-181).  On a successful get,
a truthy (non-empty, present) stored value is written into the editor and
lastSavedContent; then contentChanged := false and status 'loaded'.  On a
rejected get the catch branch only shows 'error'. -/
def loadContent (s : SPState) : SPState :=
  if s.available then
    let s1 :=
      match s.stored with
      | some c => if c = "" then s else { s with content := c, lastSavedContent := c }
      | none => s
    { s1 with contentChanged := false, status := Status.loaded }
  else
    { s with status := Status.error }

/-- checkForSyncUpdates (src/scratchpad.js lines 402-441): the poll-driven
reconciliation cycle.  An absent stored value reads as "".  The stored
value is applied only when it differs from both the editor content and
lastSavedContent and the user is not typing (contentChanged false).  A
rejected get takes the catch branch, which only logs. -/
def checkForSyncUpdates (s : SPState) : SPState :=
  if s.available then
    let storedContent := s.stored.getD ""
    let currentContent := s.content
    if storedContent ≠ currentContent ∧ storedContent ≠ s.lastSavedContent then
      if s.contentChanged then
        s
      else
        { s with
            content := storedContent
            lastSavedContent := storedContent
            contentChanged := false }
    else
      s
  else
    s

/-- The browser.storage.onChanged listener (src/scratchpad.js lines
373-390): the push-driven reconciliation cycle.  `change` is
`changes.scratchpadContent`: none when the notification does not mention
the content key, otherwise it carries the optional newValue (none when
the key was removed).  The listener acts only for the relevant area, and
overwrites the editor whenever newValue (absent read as "") differs from
the current editor content. -/
def onStorageChanged (areaName : AreaName) (change : Option (Option String))
    (s : SPState) : SPState :=
  let relevantArea := if s.usingSyncStorage then AreaName.syncArea else AreaName.localArea
  match change with
  | none => s
  | some nv =>
    if areaName = relevantArea then
      let newValue := nv.getD ""
      if newValue ≠ s.content then
        { s with
            content := newValue
            lastSavedContent := newValue
            contentChanged := false }
      else
        s
    else
      s

/-- An input event on the editor: the DOM mutates the content to
`newContent`, then the listener runs debouncedSave (src/scratchpad.js
lines 249-255): contentChanged := true, clearTimeout + setTimeout rearm
the debounce timer. -/
def editInput (newContent : String) (s : SPState) : SPState :=
  { s with content := newContent, contentChanged := true, saveTimeoutArmed := true }

/-- executeCommand (src/scratchpad.js lines 258-262): the formatting
command may mutate the editor content, then contentChanged := true. -/
def executeCommand (newContent : String) (s : SPState) : SPState :=
  { s with content := newContent, contentChanged := true }

/-- One tick of the auto-save interval (src/scratchpad.js lines 393-399):
calls saveContent only when contentChanged is set and the content differs
from lastSavedContent. -/
def autoSaveTick (s : SPState) : SPState × Nat :=
  if s.contentChanged ∧ s.content ≠ s.lastSavedContent then
    saveContent s
  else
    (s, 0)

/-- Observable steps of the beforeunload handler, in execution order. -/
inductive TeardownAction where
  | clearAutoSaveInterval
  | clearSyncCheckInterval
  | finalSaveAttempt
deriving DecidableEq, Repr

/-- The beforeunload listener (src/scratchpad.js lines 450-461): clears
the auto-save interval, then the sync-check interval, then calls
saveContent when contentChanged is set and the content differs from
lastSavedContent.  The debounce timer (saveTimeout) is not touched.
Returns the new state, the set-invocation count, and the ordered trace of
observable teardown actions. -/
def beforeunload (s : SPState) : SPState × Nat × List TeardownAction :=
  let a1 : List TeardownAction :=
    if s.autoSaveOn then [TeardownAction.clearAutoSaveInterval] else []
  let s1 := { s with autoSaveOn := false }
  let a2 : List TeardownAction :=
    if s1.syncCheckOn then [TeardownAction.clearSyncCheckInterval] else []
  let s2 := { s1 with syncCheckOn := false }
  if s2.contentChanged ∧ s2.content ≠ s2.lastSavedContent then
    let r := saveContent s2
    (r.1, r.2, a1 ++ a2 ++ [TeardownAction.finalSaveAttempt])
  else
    (s2, 0, a1 ++ a2)

/-! ### Debounce timing model

`debouncedSave` (src/scratchpad.js lines 249-255) clears any pending
saveTimeout and arms a new one SAVE_DELAY milliseconds in the future.  We
interpret a session as a weakly increasing list of edit-event times and
replay it against the timer: the pending timer fires (invoking
saveContent, one backend write) whenever its deadline passes strictly
before the next edit event; an edit event delivered at or before the
deadline reaches clearTimeout first.  A timer still pending after the
last edit fires undisturbed.  The result is the list of times at which
the debounce path invokes saveContent. -/

/-- SAVE_DELAY from src/scratchpad.js line 9 (milliseconds). -/
def SAVE_DELAY : Nat := 500

/-- Replay debouncedSave over edit times: `pending` is the absolute
deadline of the armed saveTimeout, if any. -/
def runDebounce : Option Nat → List Nat → List Nat
  | some tf, [] => [tf]
  | none, [] => []
  | some tf, t :: ts =>
      if tf < t then tf :: runDebounce (some (t + SAVE_DELAY)) ts
      else runDebounce (some (t + SAVE_DELAY)) ts
  | none, t :: ts => runDebounce (some (t + SAVE_DELAY)) ts

/-- The debounce-path write times of a whole session starting with no
timer armed. -/
def debounceWrites (ts : List Nat) : List Nat :=
  runDebounce none ts

/-! ### URL and HTML sanitization

sanitizeURL (src/scratchpad.js lines 45-69) delegates URL parsing to the
browser's WHATWG `new URL`.  We model a parse result by its protocol
field, and quantify over any parser that is scheme-faithful: when it
succeeds, the protocol it reports is the lower-cased leading scheme of
the input followed by a colon, exactly as the WHATWG basic URL parser
determines it.  A concrete such parser, `modelParse`, instantiates the
hypotheses. -/

/-- A parsed URL, reduced to the field sanitizeURL inspects. -/
structure URLRec where
  protocol : String
deriving DecidableEq, Repr

/-- The WhiteSpace and LineTerminator characters removed by the
JavaScript string trim() that sanitizeURL applies. -/
def isJsWhitespace (c : Char) : Bool :=
  c = ' ' || c = '\t' || c = '\n' || c = '\r' ||
  c = '\x0b' || c = '\x0c' || c = '\xa0' || c = '\u1680' ||
  ('\u2000' ≤ c && c ≤ '\u200a') || c = '\u2028' || c = '\u2029' ||
  c = '\u202f' || c = '\u205f' || c = '\u3000' || c = '\ufeff'

/-- JavaScript url.trim(): strip leading and trailing whitespace. -/
def jsTrim (s : String) : String :=
  String.mk (((s.data.dropWhile isJsWhitespace).reverse.dropWhile
    isJsWhitespace).reverse)

/-- Scheme characters after the first: ASCII alphanumeric, +, -, . -/
def isSchemeChar (c : Char) : Bool :=
  c.isAlphanum || c = '+' || c = '-' || c = '.'

/-- The leading scheme of a URL string, lower-cased with a trailing
colon, when present: an ASCII alpha followed by scheme characters and a
colon. -/
def schemeOf (s : String) : Option String :=
  match s.data with
  | [] => none
  | c :: _ =>
    if c.isAlpha then
      let run := s.data.takeWhile isSchemeChar
      match s.data.drop run.length with
      | ':' :: _ => some (String.mk (run.map Char.toLower) ++ ":")
      | _ => none
    else none

/-- A URL parser is scheme-faithful when every successful parse reports
as protocol the leading scheme of its input. -/
def SchemeFaithful (parse : String → Option URLRec) : Prop :=
  ∀ s r, parse s = some r → schemeOf s = some r.protocol

/-- Concrete scheme-only model of `new URL`. -/
def modelParse (s : String) : Option URLRec :=
  (schemeOf s).map URLRec.mk

/-- allowedProtocols from src/scratchpad.js line 52. -/
def allowedProtocols : List String := ["http:", "https:", "mailto:", "tel:"]

/-- Characters of the regex class [a-zA-Z0-9-._]. -/
def isDomainChar (c : Char) : Bool :=
  c.isAlphanum || c = '-' || c = '.' || c = '_'

/-- Backtracking match of the regex tail `[a-zA-Z0-9-._]*\.[a-zA-Z]{2,}`
(the part after the first character). -/
def domainTail : List Char → Bool
  | [] => false
  | c :: cs =>
      (c = '.' && match cs with
        | a :: b :: _ => a.isAlpha && b.isAlpha
        | _ => false)
      || (isDomainChar c && domainTail cs)

/-- The test `url.match(/^[a-zA-Z0-9][a-zA-Z0-9-._]*\.[a-zA-Z]\x7b2,\x7d/)`
from src/scratchpad.js line 62. -/
def looksLikeDomain (u : String) : Bool :=
  match u.data with
  | [] => false
  | c :: cs => c.isAlphanum && domainTail cs

/-- sanitizeURL (src/scratchpad.js lines 45-69), parameterized by the
URL parser.  The argument is optional since getAttribute may return
null; `if (!url)` also catches the empty string.  A parse success with
an allowed protocol returns the trimmed input; a parse failure falls to
the bare-domain heuristic which prefixes https://; anything else
returns the empty string. -/
def sanitizeURL (parse : String → Option URLRec) (url : Option String) : String :=
  match url with
  | none => ""
  | some u0 =>
    if u0 = "" then ""
    else
      let u := jsTrim u0
      match parse u with
      | some p => if p.protocol ∈ allowedProtocols then u else ""
      | none => if looksLikeDomain u then "https://" ++ u else ""

mutual
/-- DOM nodes as sanitizeHTML sees them after DOMParser: text nodes,
element nodes (upper-case tag, attributes, children), and other node
types (comments), which sanitizeNode drops. -/
inductive DNode where
  | text (s : String)
  | elem (tag : String) (attrs : List (String × String)) (children : DNodeList)
  | comment (s : String)

/-- A childNodes list. -/
inductive DNodeList where
  | nil
  | cons (n : DNode) (ns : DNodeList)
end

mutual
/-- Node.textContent for the modelled DOM. -/
def textContent : DNode → String
  | DNode.text s => s
  | DNode.comment _ => ""
  | DNode.elem _ _ cs => textContentList cs

/-- Concatenated textContent of a node list. -/
def textContentList : DNodeList → String
  | DNodeList.nil => ""
  | DNodeList.cons n ns => textContent n ++ textContentList ns
end

/-- Element.getAttribute: first binding of the name, null when absent. -/
def getAttr (attrs : List (String × String)) (name : String) : Option String :=
  (attrs.find? (fun a => a.1 = name)).map (fun a => a.2)

/-- allowedTags from src/scratchpad.js line 78. -/
def allowedTags : List String :=
  ["B", "STRONG", "I", "EM", "U", "UL", "OL", "LI", "BR", "DIV", "P", "SPAN", "A"]

mutual
/-- sanitizeNode (src/scratchpad.js lines 81-125): text nodes are kept,
disallowed elements collapse to their text content, anchors keep only a
sanitized href (plus target and rel) or collapse to text when the href
is unsafe, other allowed elements are rebuilt without attributes, and
children are sanitized recursively; other node types yield null. -/
def sanitizeNode (parse : String → Option URLRec) : DNode → Option DNode
  | DNode.text s => some (DNode.text s)
  | DNode.elem tag attrs children =>
      if tag ∈ allowedTags then
        if tag = "A" then
          let sanitizedHref := sanitizeURL parse (getAttr attrs "href")
          if sanitizedHref = "" then
            some (DNode.text (textContent (DNode.elem tag attrs children)))
          else
            some (DNode.elem "A"
              [("href", sanitizedHref), ("target", "_blank"),
               ("rel", "noopener noreferrer")]
              (sanitizeNodeList parse children))
        else
          some (DNode.elem tag [] (sanitizeNodeList parse children))
      else
        some (DNode.text (textContent (DNode.elem tag attrs children)))
  | DNode.comment _ => none

/-- The child loop of sanitizeNode / sanitizeHTML: sanitize each child
and keep the non-null results. -/
def sanitizeNodeList (parse : String → Option URLRec) : DNodeList → DNodeList
  | DNodeList.nil => DNodeList.nil
  | DNodeList.cons n ns =>
      match sanitizeNode parse n with
      | some m => DNodeList.cons m (sanitizeNodeList parse ns)
      | none => sanitizeNodeList parse ns
end

/-- sanitizeHTML (src/scratchpad.js lines 72-137) on the parsed body
children: the fragment assembled from the sanitized nodes. -/
def sanitizeHTML (parse : String → Option URLRec) (body : DNodeList) : DNodeList :=
  sanitizeNodeList parse body

mutual
/-- Every href attribute of every anchor element in the tree. -/
def anchorHrefs : DNode → List String
  | DNode.text _ => []
  | DNode.comment _ => []
  | DNode.elem tag attrs cs =>
      (if tag = "A" then (getAttr attrs "href").toList else []) ++ anchorHrefsList cs

/-- anchorHrefs over a node list. -/
def anchorHrefsList : DNodeList → List String
  | DNodeList.nil => []
  | DNodeList.cons n ns => anchorHrefs n ++ anchorHrefsList ns
end

/-- A convenient base session state for concrete instances. -/
def baseState : SPState :=
  { content := ""
    lastSavedContent := ""
    contentChanged := false
    status := Status.ready
    stored := none
    available := true
    usingSyncStorage := true
    saveTimeoutArmed := false
    autoSaveOn := true
    syncCheckOn := true }

/-- The storage area name the onChanged listener considers relevant. -/
def relevantAreaOf (s : SPState) : AreaName :=
  if s.usingSyncStorage then AreaName.syncArea else AreaName.localArea

/-- A dirty state: an unsaved local edit "B" over saved snapshot "A". -/
def exDirty : SPState :=
  { baseState with content := "B", lastSavedContent := "A", contentChanged := true }

/-- The dirty state with every timer armed, as before teardown. -/
def exTeardown : SPState :=
  { exDirty with saveTimeoutArmed := true }

/-- The dirty-flag invariant of the spec: DirtyFlag true implies the
content differs from the last-saved snapshot. -/
def Inv (s : SPState) : Prop :=
  s.contentChanged = true → s.content ≠ s.lastSavedContent

/-- Closed form of the debounce replay: an armed timer fires exactly when
its deadline strictly precedes the next edit, and the timer armed by the
last edit always fires. -/
def fireTimes : List Nat → List Nat
  | [] => []
  | [t] => [t + SAVE_DELAY]
  | t :: t' :: ts =>
      if t + SAVE_DELAY < t' then (t + SAVE_DELAY) :: fireTimes (t' :: ts)
      else fireTimes (t' :: ts)

/-! ### Theorems -/

/-- C1 (counterexample): the claim asserts that a push-notification-driven
cycle with stored == lastSaved ≠ current takes no action; but with
stored = lastSaved = "A" and current = "B" (an unsaved local edit) the
onChanged listener overwrites the editor content. -/
theorem C1_push_cycle_acts_counterexample :
    (onStorageChanged AreaName.syncArea (some (some "A"))
        { baseState with content := "B", lastSavedContent := "A",
                         contentChanged := true, stored := some "A" }).content
      ≠ "B" := by
  decide

/-- C1 (amended): a poll-driven cycle in which the stored value equals
LastSavedSnapshot but differs from the current content takes no action;
a push-driven cycle in that same configuration instead overwrites the
editor with the stored value and clears the dirty flag. -/
theorem C1_stale_stored_value :
    (∀ s : SPState, s.available = true →
        s.stored.getD "" = s.lastSavedContent →
        s.stored.getD "" ≠ s.content →
        checkForSyncUpdates s = s) ∧
    (∀ (s : SPState) (a : AreaName) (nv : Option String),
        a = relevantAreaOf s →
        nv.getD "" = s.lastSavedContent →
        nv.getD "" ≠ s.content →
        onStorageChanged a (some nv) s =
          { s with content := nv.getD "", lastSavedContent := nv.getD "",
                   contentChanged := false }) := by
  constructor
  · intro s hav heq hne
    simp [checkForSyncUpdates, hav, heq]
  · intro s a nv ha heq hne
    simp [onStorageChanged, ha, relevantAreaOf, hne]

/-- C1 (witness): both halves at concrete states. -/
theorem C1_stale_stored_value_witness :
    checkForSyncUpdates
        { baseState with content := "B", lastSavedContent := "A",
                         contentChanged := true, stored := some "A" } =
      { baseState with content := "B", lastSavedContent := "A",
                       contentChanged := true, stored := some "A" } ∧
    onStorageChanged AreaName.localArea (some (some "A"))
        { baseState with content := "B", lastSavedContent := "A",
                         contentChanged := true, usingSyncStorage := false } =
      { baseState with content := "A", lastSavedContent := "A",
                       contentChanged := false, usingSyncStorage := false } := by
  constructor
  · exact C1_stale_stored_value.1
      { baseState with content := "B", lastSavedContent := "A",
                       contentChanged := true, stored := some "A" }
      rfl (by decide) (by decide)
  · exact C1_stale_stored_value.2
      { baseState with content := "B", lastSavedContent := "A",
                       contentChanged := true, usingSyncStorage := false }
      AreaName.localArea (some "A") (by decide) (by decide) (by decide)

/-- C2 (counterexample): the claim asserts that a push-driven cycle with a
genuine remote change (stored = "C" differing from current = "B" and
lastSaved = "A") and DirtyFlag true defers; but the onChanged listener
overwrites the editor regardless of the dirty flag. -/
theorem C2_push_cycle_ignores_dirty_counterexample :
    (onStorageChanged AreaName.syncArea (some (some "C"))
        { baseState with content := "B", lastSavedContent := "A",
                         contentChanged := true, stored := some "C" }).content
      ≠ "B" := by
  decide

/-- C2 (amended): a poll-driven cycle with a genuine remote change and
DirtyFlag true defers, leaving the state unchanged; a push-driven cycle
in that same configuration instead overwrites the editor with the
notified value and clears the dirty flag. -/
theorem C2_dirty_defers_poll :
    (∀ s : SPState, s.available = true →
        s.stored.getD "" ≠ s.content →
        s.stored.getD "" ≠ s.lastSavedContent →
        s.contentChanged = true →
        checkForSyncUpdates s = s) ∧
    (∀ (s : SPState) (a : AreaName) (nv : Option String),
        a = relevantAreaOf s →
        nv.getD "" ≠ s.content →
        s.contentChanged = true →
        onStorageChanged a (some nv) s =
          { s with content := nv.getD "", lastSavedContent := nv.getD "",
                   contentChanged := false }) := by
  constructor
  · intro s hav hnc hnl hdirty
    simp [checkForSyncUpdates, hav, hnc, hnl, hdirty]
  · intro s a nv ha hnc _
    simp [onStorageChanged, ha, relevantAreaOf, hnc]

/-- C2 (witness): both halves at concrete states. -/
theorem C2_dirty_defers_poll_witness :
    checkForSyncUpdates
        { baseState with content := "B", lastSavedContent := "A",
                         contentChanged := true, stored := some "C" } =
      { baseState with content := "B", lastSavedContent := "A",
                       contentChanged := true, stored := some "C" } ∧
    onStorageChanged AreaName.syncArea (some (some "C"))
        { baseState with content := "B", lastSavedContent := "A",
                         contentChanged := true, stored := some "C" } =
      { baseState with content := "C", lastSavedContent := "C",
                       contentChanged := false, stored := some "C" } := by
  constructor
  · exact C2_dirty_defers_poll.1
      { baseState with content := "B", lastSavedContent := "A",
                       contentChanged := true, stored := some "C" }
      rfl (by decide) (by decide) rfl
  · exact C2_dirty_defers_poll.2
      { baseState with content := "B", lastSavedContent := "A",
                       contentChanged := true, stored := some "C" }
      AreaName.syncArea (some "C") (by decide) (by decide) rfl

/-- C3: in a cycle where the stored value differs from both the current
content and LastSavedSnapshot and DirtyFlag is false, both the poll-driven
and the push-driven entry point accept the remote value as one unit:
content := stored, lastSavedContent := stored, contentChanged := false,
so the editor afterwards equals the value in storage. -/
theorem C3_accept_remote_update :
    (∀ s : SPState, s.available = true →
        s.stored.getD "" ≠ s.content →
        s.stored.getD "" ≠ s.lastSavedContent →
        s.contentChanged = false →
        checkForSyncUpdates s =
          { s with content := s.stored.getD "", lastSavedContent := s.stored.getD "",
                   contentChanged := false }) ∧
    (∀ (s : SPState) (a : AreaName) (v : String),
        s.stored = some v →
        a = relevantAreaOf s →
        v ≠ s.content →
        v ≠ s.lastSavedContent →
        s.contentChanged = false →
        onStorageChanged a (some (some v)) s =
          { s with content := s.stored.getD "", lastSavedContent := s.stored.getD "",
                   contentChanged := false }) := by
  constructor
  · intro s hav hnc hnl hclean
    simp [checkForSyncUpdates, hav, hnc, hnl, hclean]
  · intro s a v hst ha hnc _ _
    simp [onStorageChanged, ha, relevantAreaOf, hnc, hst]

/-- C3 (witness): both halves at concrete states. -/
theorem C3_accept_remote_update_witness :
    checkForSyncUpdates
        { baseState with content := "A", lastSavedContent := "A",
                         stored := some "C" } =
      { baseState with content := "C", lastSavedContent := "C",
                       stored := some "C" } ∧
    onStorageChanged AreaName.syncArea (some (some "C"))
        { baseState with content := "A", lastSavedContent := "A",
                         stored := some "C" } =
      { baseState with content := "C", lastSavedContent := "C",
                       stored := some "C" } := by
  constructor
  · exact C3_accept_remote_update.1
      { baseState with content := "A", lastSavedContent := "A", stored := some "C" }
      rfl (by decide) (by decide) rfl
  · exact C3_accept_remote_update.2
      { baseState with content := "A", lastSavedContent := "A", stored := some "C" }
      AreaName.syncArea "C" rfl (by decide) (by decide) (by decide) rfl

/-- Replaying the debounce from a timer armed at edit time `t` agrees
with the closed-form fire times of `t :: ts`. -/
theorem runDebounce_eq_fireTimes : ∀ (ts : List Nat) (t : Nat),
    runDebounce (some (t + SAVE_DELAY)) ts = fireTimes (t :: ts) := by
  intro ts
  induction ts with
  | nil => intro t; rfl
  | cons t' ts ih =>
    intro t
    show (if t + SAVE_DELAY < t' then
        (t + SAVE_DELAY) :: runDebounce (some (t' + SAVE_DELAY)) ts
      else runDebounce (some (t' + SAVE_DELAY)) ts) = _
    rw [ih t']
    rfl

/-- The debounce-path writes of a session are the closed-form fire times. -/
theorem debounceWrites_eq_fireTimes : ∀ ts : List Nat, debounceWrites ts = fireTimes ts
  | [] => rfl
  | t :: ts => runDebounce_eq_fireTimes ts t

/-- Every fire time is the deadline of some edit that was followed by a
full quiet window: no other edit falls in (te, te + SAVE_DELAY]. -/
theorem fireTimes_sound : ∀ ts : List Nat, List.Sorted (· ≤ ·) ts →
    ∀ w ∈ fireTimes ts, ∃ te ∈ ts, w = te + SAVE_DELAY ∧
      ∀ t ∈ ts, t ≤ te ∨ te + SAVE_DELAY < t := by
  intro ts
  induction ts with
  | nil => intro _ w hw; simp [fireTimes] at hw
  | cons t tail ih =>
    intro hsorted w hw
    cases tail with
    | nil =>
      rw [fireTimes] at hw
      rcases List.mem_singleton.mp hw with rfl
      refine ⟨t, List.mem_singleton_self t, rfl, ?_⟩
      intro x hx
      rcases List.mem_singleton.mp hx with rfl
      exact Or.inl le_rfl
    | cons t' ts' =>
      obtain ⟨hrel, htail⟩ := List.sorted_cons.mp hsorted
      obtain ⟨hrel', _⟩ := List.sorted_cons.mp htail
      by_cases hfire : t + SAVE_DELAY < t'
      · rw [fireTimes, if_pos hfire] at hw
        rcases List.mem_cons.mp hw with hw1 | hw2
        · refine ⟨t, List.mem_cons_self t _, hw1, ?_⟩
          intro x hx
          rcases List.mem_cons.mp hx with rfl | hx'
          · exact Or.inl le_rfl
          · rcases List.mem_cons.mp hx' with rfl | hx''
            · exact Or.inr hfire
            · exact Or.inr (lt_of_lt_of_le hfire (hrel' x hx''))
        · obtain ⟨te, hte, hweq, hprot⟩ := ih htail w hw2
          refine ⟨te, List.mem_cons_of_mem _ hte, hweq, ?_⟩
          intro x hx
          rcases List.mem_cons.mp hx with rfl | hx'
          · exact Or.inl (hrel te hte)
          · exact hprot x hx'
      · rw [fireTimes, if_neg hfire] at hw
        obtain ⟨te, hte, hweq, hprot⟩ := ih htail w hw
        refine ⟨te, List.mem_cons_of_mem _ hte, hweq, ?_⟩
        intro x hx
        rcases List.mem_cons.mp hx with rfl | hx'
        · exact Or.inl (hrel te hte)
        · exact hprot x hx'

/-- A burst of edits whose consecutive gaps stay within the window yields
at most one fire time. -/
theorem fireTimes_burst : ∀ ts : List Nat,
    List.Chain' (fun a b => b ≤ a + SAVE_DELAY) ts → (fireTimes ts).length ≤ 1 := by
  intro ts
  induction ts with
  | nil => intro _; simp [fireTimes]
  | cons t tail ih =>
    intro hchain
    cases tail with
    | nil => simp [fireTimes]
    | cons t' ts' =>
      obtain ⟨hle, hchain'⟩ := List.chain'_cons.mp hchain
      rw [fireTimes, if_neg (not_lt.mpr hle)]
      exact ih hchain'

/-- C4: over any weakly increasing session of edit-event times, every
debounce-path backend write happens exactly SAVE_DELAY (500 ms) after
some edit that no further edit follows within the window; a burst of
edits whose gaps all stay within the window collapses to at most one
trailing write; and each edit event sets the dirty flag and (re)arms the
debounce timer. -/
theorem C4_debounce_correctness :
    (∀ ts : List Nat, List.Sorted (· ≤ ·) ts →
        ∀ w ∈ debounceWrites ts, ∃ te ∈ ts, w = te + SAVE_DELAY ∧
          ∀ t ∈ ts, t ≤ te ∨ te + SAVE_DELAY < t) ∧
    (∀ ts : List Nat, List.Chain' (fun a b => b ≤ a + SAVE_DELAY) ts →
        (debounceWrites ts).length ≤ 1) ∧
    (∀ (c : String) (s : SPState),
        (editInput c s).contentChanged = true ∧
        (editInput c s).saveTimeoutArmed = true) := by
  refine ⟨?_, ?_, ?_⟩
  · intro ts hs w hw
    rw [debounceWrites_eq_fireTimes] at hw
    exact fireTimes_sound ts hs w hw
  · intro ts hch
    rw [debounceWrites_eq_fireTimes]
    exact fireTimes_burst ts hch
  · intro c s
    exact ⟨rfl, rfl⟩

/-- C4 (witness): a rapid burst at 0, 100, 200 ms produces the single
trailing write at 700 ms. -/
theorem C4_debounce_correctness_witness :
    (∃ te ∈ [0, 100, 200], 700 = te + SAVE_DELAY ∧
        ∀ t ∈ [0, 100, 200], t ≤ te ∨ te + SAVE_DELAY < t) ∧
    (debounceWrites [0, 100, 200]).length ≤ 1 ∧
    (editInput "h" baseState).contentChanged = true :=
  ⟨C4_debounce_correctness.1 [0, 100, 200] (by decide) 700 (by decide),
   C4_debounce_correctness.2.1 [0, 100, 200]
     (by simp [List.chain'_cons, SAVE_DELAY]),
   (C4_debounce_correctness.2.2 "h" baseState).1⟩

/-- C5: saveContent with content equal to lastSavedContent performs zero
backend writes and changes no state; consequently after any save with an
available backend, a second save with no intervening edit is a no-op, the
two calls together perform at most one set, and exactly one when there
was something to save. -/
theorem C5_save_idempotent :
    (∀ s : SPState, s.content = s.lastSavedContent → saveContent s = (s, 0)) ∧
    (∀ s : SPState, s.available = true →
        saveContent (saveContent s).1 = ((saveContent s).1, 0)) ∧
    (∀ s : SPState, s.available = true →
        (saveContent s).2 + (saveContent (saveContent s).1).2 ≤ 1) ∧
    (∀ s : SPState, s.available = true → s.content ≠ s.lastSavedContent →
        (saveContent s).2 = 1 ∧ (saveContent (saveContent s).1).2 = 0) := by
  have h1 : ∀ s : SPState, s.content = s.lastSavedContent → saveContent s = (s, 0) := by
    intro s h
    simp [saveContent, h]
  have h2 : ∀ s : SPState, s.available = true →
      saveContent (saveContent s).1 = ((saveContent s).1, 0) := by
    intro s hav
    by_cases hc : s.content = s.lastSavedContent
    · rw [h1 s hc]
      exact h1 s hc
    · apply h1
      simp [saveContent, hc, hav]
  refine ⟨h1, h2, ?_, ?_⟩
  · intro s hav
    rw [h2 s hav]
    by_cases hc : s.content = s.lastSavedContent
    · simp [h1 s hc]
    · simp [saveContent, hc, hav]
  · intro s hav hc
    rw [h2 s hav]
    simp [saveContent, hc, hav]

/-- C5 (witness): a dirty state with an available backend: the first save
writes once, the second is a no-op. -/
theorem C5_save_idempotent_witness :
    (saveContent { baseState with content := "hello", lastSavedContent := "" }).2 = 1 ∧
    (saveContent
        (saveContent { baseState with content := "hello", lastSavedContent := "" }).1).2
      = 0 :=
  C5_save_idempotent.2.2.2
    { baseState with content := "hello", lastSavedContent := "" }
    rfl (by decide)

/-- C6 (counterexample): the claim asserts every backend failure is
converted to a user-visible error status; but a get rejection during a
poll cycle is only logged — the status stays ready, the whole state is
unchanged. -/
theorem C6_poll_failure_silent_counterexample :
    (checkForSyncUpdates { baseState with available := false }).status
      = Status.ready ∧ Status.ready ≠ Status.error := by
  decide

/-- C6 (amended): for every backend failure, the in-memory document state
(content, lastSavedContent, contentChanged) and the stored value are left
unchanged and the failure is caught: load() and save() failures surface
the error status, while a poll-cycle get failure is caught and logged
without any state or status change. -/
theorem C6_failures_leave_state_intact :
    (∀ s : SPState, s.available = false →
        (loadContent s).content = s.content ∧
        (loadContent s).lastSavedContent = s.lastSavedContent ∧
        (loadContent s).contentChanged = s.contentChanged ∧
        (loadContent s).stored = s.stored ∧
        (loadContent s).status = Status.error) ∧
    (∀ s : SPState, s.available = false → s.content ≠ s.lastSavedContent →
        (saveContent s).1.content = s.content ∧
        (saveContent s).1.lastSavedContent = s.lastSavedContent ∧
        (saveContent s).1.contentChanged = s.contentChanged ∧
        (saveContent s).1.stored = s.stored ∧
        (saveContent s).1.status = Status.error) ∧
    (∀ s : SPState, s.available = false → checkForSyncUpdates s = s) := by
  refine ⟨?_, ?_, ?_⟩
  · intro s hav
    simp [loadContent, hav]
  · intro s hav hc
    simp [saveContent, hav, hc]
  · intro s hav
    simp [checkForSyncUpdates, hav]

/-- C6 (witness): all three entry points at concrete failing states. -/
theorem C6_failures_leave_state_intact_witness :
    (loadContent { baseState with available := false }).status = Status.error ∧
    (saveContent { baseState with content := "x", available := false }).1.status
      = Status.error ∧
    checkForSyncUpdates { baseState with available := false } =
      { baseState with available := false } := by
  refine ⟨?_, ?_, ?_⟩
  · exact (C6_failures_leave_state_intact.1 { baseState with available := false }
      rfl).2.2.2.2
  · exact (C6_failures_leave_state_intact.2.1
      { baseState with content := "x", available := false } rfl (by decide)).2.2.2.2
  · exact C6_failures_leave_state_intact.2.2 { baseState with available := false } rfl

/-- C7 (counterexample): the claim asserts that on teardown all timers —
including the debounce timer — are cancelled and that the final save is
triggered before the timers are cleared; but with all three timers armed
and a dirty divergent state, the debounce timer stays armed and the final
save attempt comes after both interval clears in the trace. -/
theorem C7_teardown_counterexample :
    (beforeunload exTeardown).1.saveTimeoutArmed = true ∧
    (beforeunload exTeardown).2.2 =
      [TeardownAction.clearAutoSaveInterval, TeardownAction.clearSyncCheckInterval,
       TeardownAction.finalSaveAttempt] := by
  decide

/-- C7 (amended): on teardown the auto-save and sync-poll intervals are
cancelled but the debounce timer is left as it was, and exactly one final
save attempt is made if and only if DirtyFlag is true and the content
differs from LastSavedSnapshot — the save attempt coming after the
interval clears. -/
theorem C7_teardown_flush :
    ∀ s : SPState,
      (beforeunload s).1.autoSaveOn = false ∧
      (beforeunload s).1.syncCheckOn = false ∧
      (beforeunload s).1.saveTimeoutArmed = s.saveTimeoutArmed ∧
      (s.contentChanged = true → s.content ≠ s.lastSavedContent →
        ∃ pre, (beforeunload s).2.2 = pre ++ [TeardownAction.finalSaveAttempt] ∧
          TeardownAction.finalSaveAttempt ∉ pre) ∧
      (¬(s.contentChanged = true ∧ s.content ≠ s.lastSavedContent) →
        TeardownAction.finalSaveAttempt ∉ (beforeunload s).2.2) := by
  intro s
  have hA : ∀ t : SPState, (saveContent t).1.autoSaveOn = t.autoSaveOn := by
    intro t
    by_cases hc : t.content = t.lastSavedContent
    · simp [saveContent, hc]
    · by_cases hav : t.available = true <;> simp [saveContent, hc, hav]
  have hS : ∀ t : SPState, (saveContent t).1.syncCheckOn = t.syncCheckOn := by
    intro t
    by_cases hc : t.content = t.lastSavedContent
    · simp [saveContent, hc]
    · by_cases hav : t.available = true <;> simp [saveContent, hc, hav]
  have hT : ∀ t : SPState, (saveContent t).1.saveTimeoutArmed = t.saveTimeoutArmed := by
    intro t
    by_cases hc : t.content = t.lastSavedContent
    · simp [saveContent, hc]
    · by_cases hav : t.available = true <;> simp [saveContent, hc, hav]
  refine ⟨?_, ?_, ?_, ?_, ?_⟩
  · simp only [beforeunload]
    split
    · simp [hA]
    · simp
  · simp only [beforeunload]
    split
    · simp [hS]
    · simp
  · simp only [beforeunload]
    split
    · simp [hT]
    · simp
  · intro hd hc
    refine ⟨(if s.autoSaveOn then [TeardownAction.clearAutoSaveInterval] else []) ++
      (if s.syncCheckOn then [TeardownAction.clearSyncCheckInterval] else []), ?_, ?_⟩
    · simp [beforeunload, hd, hc]
    · by_cases h1 : s.autoSaveOn <;> by_cases h2 : s.syncCheckOn <;> simp [h1, h2]
  · intro hn
    by_cases h1 : s.autoSaveOn <;> by_cases h2 : s.syncCheckOn <;>
      simp [beforeunload, hn, h1, h2]

/-- C7 (witness): the amended behavior at a concrete dirty state. -/
theorem C7_teardown_flush_witness :
    (beforeunload exTeardown).1.autoSaveOn = false ∧
    (∃ pre, (beforeunload exTeardown).2.2 =
        pre ++ [TeardownAction.finalSaveAttempt] ∧
      TeardownAction.finalSaveAttempt ∉ pre) :=
  ⟨(C7_teardown_flush exTeardown).1,
   (C7_teardown_flush exTeardown).2.2.2.1 rfl (by decide)⟩

/-- C8 (counterexample): the claim asserts the invariant is preserved by
every operation, edit events included; but two edit events whose second
returns the content to the saved value leave DirtyFlag true with content
equal to LastSavedSnapshot. -/
theorem C8_edit_breaks_invariant_counterexample :
    (editInput "A" (editInput "Ax"
        { baseState with content := "A", lastSavedContent := "A" })).contentChanged
      = true ∧
    (editInput "A" (editInput "Ax"
        { baseState with content := "A", lastSavedContent := "A" })).content =
      (editInput "A" (editInput "Ax"
        { baseState with content := "A", lastSavedContent := "A" })).lastSavedContent := by
  decide

/-- C8 (amended): the invariant DirtyFlag ⇒ content ≠ lastSaved is
preserved by load, save, auto-save tick, poll cycle, push notification
and teardown, but not by edit events or formatting commands, which set
DirtyFlag unconditionally. -/
theorem C8_invariant_preservation :
    ∀ s : SPState, Inv s →
      Inv (loadContent s) ∧
      Inv (saveContent s).1 ∧
      Inv (autoSaveTick s).1 ∧
      Inv (checkForSyncUpdates s) ∧
      (∀ (a : AreaName) (c : Option (Option String)), Inv (onStorageChanged a c s)) ∧
      Inv (beforeunload s).1 := by
  intro s hs
  have hsave : Inv (saveContent s).1 := by
    by_cases hc : s.content = s.lastSavedContent
    · simpa [saveContent, hc] using hs
    · by_cases hav : s.available = true
      · simp [Inv, saveContent, hc, hav]
      · simp [Inv, saveContent, hc, hav]
  refine ⟨?_, hsave, ?_, ?_, ?_, ?_⟩
  · by_cases hav : s.available = true
    · cases hst : s.stored with
      | none => simp [Inv, loadContent, hav, hst]
      | some c =>
        by_cases hce : c = ""
        · simp [Inv, loadContent, hav, hst, hce]
        · simp [Inv, loadContent, hav, hst, hce]
    · simpa [Inv, loadContent, hav] using hs
  · by_cases ht : s.contentChanged = true ∧ s.content ≠ s.lastSavedContent
    · simpa [autoSaveTick, ht] using hsave
    · simpa [autoSaveTick, ht] using hs
  · by_cases hav : s.available = true
    · by_cases hcond : s.stored.getD "" ≠ s.content ∧ s.stored.getD "" ≠ s.lastSavedContent
      · by_cases hd : s.contentChanged = true
        · simpa [checkForSyncUpdates, hav, hcond, hd] using hs
        · simp [Inv, checkForSyncUpdates, hav, hcond, hd]
      · simpa [checkForSyncUpdates, hav, hcond] using hs
    · simpa [checkForSyncUpdates, hav] using hs
  · intro a c
    cases c with
    | none => simpa [onStorageChanged] using hs
    | some nv =>
      by_cases ha : a = relevantAreaOf s
      · by_cases hnc : nv.getD "" ≠ s.content
        · simp [Inv, onStorageChanged, ha, relevantAreaOf, hnc]
        · simpa [Inv, onStorageChanged, ha, relevantAreaOf, hnc] using hs
      · simp only [onStorageChanged]
        rw [if_neg (by simpa [relevantAreaOf] using ha)]
        exact hs
  · by_cases ht : s.contentChanged = true ∧ s.content ≠ s.lastSavedContent
    · have := hsave
      by_cases hav : s.available = true
      · simp [Inv, beforeunload, ht, saveContent, ht.2, hav]
      · simp [Inv, beforeunload, ht, saveContent, ht.2, hav]
    · simpa [Inv, beforeunload, ht] using hs

/-- C8 (witness): the amended preservation at a concrete dirty state. -/
theorem C8_invariant_preservation_witness :
    Inv (loadContent exDirty) ∧ Inv (saveContent exDirty).1 :=
  ⟨(C8_invariant_preservation exDirty (fun _ => by decide)).1,
   (C8_invariant_preservation exDirty (fun _ => by decide)).2.1⟩

/-- C10: both reconciliation entry points treat an absent stored value as
the empty string: with the content key missing (poll) or a notification
carrying no newValue (push), and a clean local state whose non-empty
content equals LastSavedSnapshot, the cycle clears the editor and the
snapshot. -/
theorem C10_absent_value_clears_note :
    (∀ s : SPState, s.available = true → s.stored = none →
        s.contentChanged = false → s.content = s.lastSavedContent →
        s.lastSavedContent ≠ "" →
        checkForSyncUpdates s =
          { s with content := "", lastSavedContent := "", contentChanged := false }) ∧
    (∀ (s : SPState) (a : AreaName), s.stored = none →
        a = relevantAreaOf s →
        s.contentChanged = false → s.content = s.lastSavedContent →
        s.lastSavedContent ≠ "" →
        onStorageChanged a (some none) s =
          { s with content := "", lastSavedContent := "", contentChanged := false }) := by
  constructor
  · intro s hav hst hclean hce hne
    have hc2 : ("" : String) ≠ s.content := fun h => hne (hce ▸ h.symm)
    have hn2 : ("" : String) ≠ s.lastSavedContent := fun h => hne h.symm
    simp [checkForSyncUpdates, hav, hst, hclean, hc2, hn2]
  · intro s a hst ha hclean hce hne
    have hc2 : ("" : String) ≠ s.content := fun h => hne (hce ▸ h.symm)
    simp [onStorageChanged, ha, relevantAreaOf, hc2]

/-- C10 (witness): both halves at concrete states with the key absent. -/
theorem C10_absent_value_clears_note_witness :
    checkForSyncUpdates { baseState with content := "X", lastSavedContent := "X" } =
      { baseState with content := "", lastSavedContent := "" } ∧
    onStorageChanged AreaName.syncArea (some none)
        { baseState with content := "X", lastSavedContent := "X" } =
      { baseState with content := "", lastSavedContent := "" } := by
  constructor
  · exact C10_absent_value_clears_note.1
      { baseState with content := "X", lastSavedContent := "X" }
      rfl rfl rfl rfl (by decide)
  · exact C10_absent_value_clears_note.2
      { baseState with content := "X", lastSavedContent := "X" }
      AreaName.syncArea rfl rfl rfl rfl (by decide)

/-- Prefixing https:// forces the https scheme, whatever follows. -/
theorem schemeOf_https_append (u : String) :
    schemeOf ("https://" ++ u) = some "https:" := rfl

/-- The concrete scheme-only parser model is scheme-faithful. -/
theorem modelParse_schemeFaithful : SchemeFaithful modelParse := by
  intro s r hr
  rcases Option.map_eq_some'.mp hr with ⟨a, ha, hmk⟩
  rw [← hmk]
  exact ha

/-- sanitizeURL yields the empty string or a URL whose parsed protocol is
in the allow-list: a parse success is guarded by the allow-list, and the
bare-domain fallback prefixes https://, which pins the scheme. -/
theorem sanitizeURL_safe (parse : String → Option URLRec)
    (hp : SchemeFaithful parse) (url : Option String) :
    sanitizeURL parse url = "" ∨
      ∀ r, parse (sanitizeURL parse url) = some r →
        r.protocol ∈ allowedProtocols := by
  cases url with
  | none => exact Or.inl rfl
  | some u0 =>
    by_cases h0 : u0 = ""
    · exact Or.inl (by simp [sanitizeURL, h0])
    · cases hparse : parse (jsTrim u0) with
      | some p =>
        by_cases hal : p.protocol ∈ allowedProtocols
        · right
          intro r hr
          have hval : sanitizeURL parse (some u0) = jsTrim u0 := by
            simp [sanitizeURL, h0, hparse, hal]
          rw [hval, hparse] at hr
          cases hr
          exact hal
        · exact Or.inl (by simp [sanitizeURL, h0, hparse, hal])
      | none =>
        by_cases hdom : looksLikeDomain (jsTrim u0) = true
        · right
          intro r hr
          have hval : sanitizeURL parse (some u0) = "https://" ++ jsTrim u0 := by
            simp [sanitizeURL, h0, hparse, hdom]
          rw [hval] at hr
          have hsch := hp _ r hr
          rw [schemeOf_https_append] at hsch
          injection hsch with h
          rw [← h]
          decide
        · exact Or.inl (by simp [sanitizeURL, h0, hparse, hdom])

mutual
/-- Every node sanitizeNode keeps carries only anchor hrefs whose parsed
protocol is in the allow-list. -/
theorem sanitizeNode_anchorsSafe (parse : String → Option URLRec)
    (hp : SchemeFaithful parse) :
    ∀ n m, sanitizeNode parse n = some m →
      ∀ h ∈ anchorHrefs m, ∀ r, parse h = some r →
        r.protocol ∈ allowedProtocols
  | DNode.text s, m, hm => by
      rw [sanitizeNode] at hm
      cases hm
      intro h hh
      simp [anchorHrefs] at hh
  | DNode.comment s, m, hm => by
      rw [sanitizeNode] at hm
      exact Option.noConfusion hm
  | DNode.elem tag attrs children, m, hm => by
      simp only [sanitizeNode] at hm
      by_cases htag : tag ∈ allowedTags
      · rw [if_pos htag] at hm
        by_cases hA : tag = "A"
        · rw [if_pos hA] at hm
          by_cases hempty : sanitizeURL parse (getAttr attrs "href") = ""
          · rw [if_pos hempty] at hm
            cases hm
            intro h hh
            simp [anchorHrefs] at hh
          · rw [if_neg hempty] at hm
            cases hm
            intro h hh r hr
            simp only [anchorHrefs, if_pos rfl, getAttr, List.find?,
              Option.map_some', Option.toList_some] at hh
            rcases List.mem_append.mp hh with h1 | h2
            · have hv : h = sanitizeURL parse (getAttr attrs "href") := by
                simpa using h1
              rcases sanitizeURL_safe parse hp (getAttr attrs "href") with hz | hsafe
              · exact absurd hz hempty
              · exact hsafe r (hv ▸ hr)
            · exact sanitizeNodeList_anchorsSafe parse hp children h h2 r hr
        · rw [if_neg hA] at hm
          cases hm
          intro h hh r hr
          simp only [anchorHrefs, if_neg hA, List.nil_append] at hh
          exact sanitizeNodeList_anchorsSafe parse hp children h hh r hr
      · rw [if_neg htag] at hm
        cases hm
        intro h hh
        simp [anchorHrefs] at hh

/-- The sanitized child list carries only allow-listed anchor hrefs. -/
theorem sanitizeNodeList_anchorsSafe (parse : String → Option URLRec)
    (hp : SchemeFaithful parse) :
    ∀ ns, ∀ h ∈ anchorHrefsList (sanitizeNodeList parse ns),
      ∀ r, parse h = some r → r.protocol ∈ allowedProtocols
  | DNodeList.nil => by
      intro h hh
      rw [sanitizeNodeList, anchorHrefsList] at hh
      exact absurd hh (List.not_mem_nil h)
  | DNodeList.cons n ns => by
      intro h hh r hr
      rw [sanitizeNodeList] at hh
      cases hsn : sanitizeNode parse n with
      | some m =>
          rw [hsn, anchorHrefsList] at hh
          rcases List.mem_append.mp hh with h1 | h2
          · exact sanitizeNode_anchorsSafe parse hp n m hsn h h1 r hr
          · exact sanitizeNodeList_anchorsSafe parse hp ns h h2 r hr
      | none =>
          rw [hsn] at hh
          exact sanitizeNodeList_anchorsSafe parse hp ns h hh r hr
end

/-- C9: for every scheme-faithful URL parser and every input, sanitizeURL
returns either the empty string or a URL string whose protocol is http:,
https:, mailto:, or tel: (possibly by prefixing https:// to a bare
domain); hence every href attribute sanitizeHTML retains on an anchor
element has an allow-listed protocol — and javascript:, data:, file: are
not in the allow-list. -/
theorem C9_href_protocol_allowlist :
    (∀ (parse : String → Option URLRec), SchemeFaithful parse →
        ∀ url : Option String,
          sanitizeURL parse url = "" ∨
            ∀ r, parse (sanitizeURL parse url) = some r →
              r.protocol ∈ allowedProtocols) ∧
    (∀ (parse : String → Option URLRec), SchemeFaithful parse →
        ∀ (body : DNodeList) (h : String),
          h ∈ anchorHrefsList (sanitizeHTML parse body) →
          ∀ r, parse h = some r → r.protocol ∈ allowedProtocols) ∧
    ("javascript:" ∉ allowedProtocols ∧ "data:" ∉ allowedProtocols ∧
      "file:" ∉ allowedProtocols) :=
  ⟨sanitizeURL_safe,
   fun parse hp body h hh r hr => sanitizeNodeList_anchorsSafe parse hp body h hh r hr,
   by decide⟩

/-- C9 (witness): with the concrete parser model, a javascript: URL is
erased, and in a sanitized document whose anchor came from the bare
domain www.example.com the retained href parses to the https: protocol,
which the allow-list contains. -/
theorem C9_href_protocol_allowlist_witness :
    (sanitizeURL modelParse (some "javascript:alert(1)") = "" ∨
      ∀ r, modelParse (sanitizeURL modelParse (some "javascript:alert(1)")) = some r →
        r.protocol ∈ allowedProtocols) ∧
    ("https:" : String) ∈ allowedProtocols :=
  ⟨C9_href_protocol_allowlist.1 modelParse modelParse_schemeFaithful
     (some "javascript:alert(1)"),
   C9_href_protocol_allowlist.2.1 modelParse modelParse_schemeFaithful
     (DNodeList.cons (DNode.elem "A" [("href", "www.example.com")] DNodeList.nil)
       DNodeList.nil)
     "https://www.example.com" (by decide) (URLRec.mk "https:") (by decide)⟩

end Scratchpad
